import Mathlib

/-- Default value of the env-configurable MIN_CONFIDENCE_SCORE (config.py). -/
def MIN_CONFIDENCE_SCORE : ℚ := 1/2

/-- Default value of DEFAULT_CONFIDENCE_SCORE (config.py). -/
def DEFAULT_CONFIDENCE_SCORE : ℚ := 85/100

/-- Default value of MIN_CONTENT_LENGTH (config.py). -/
def MIN_CONTENT_LENGTH : ℕ := 50

/-- Default value of SCRAPER_MAX_RETRIES (config.py). -/
def SCRAPER_MAX_RETRIES : ℕ := 3

/-- Default value of SCRAPER_RESULTS_PER_CELEBRITY (config.py). -/
def SCRAPER_RESULTS_PER_CELEBRITY : ℕ := 20

/-- Default value of CELEBRITIES_PER_BATCH (config.py). -/
def CELEBRITIES_PER_BATCH : ℕ := 20

/-- TextCleaner.calculate_confidence_score (src/scraper/text_processor.py).
IEEE floats are modelled by exact rationals (every threshold and output of
the source is an exact decimal).  The env-configurable MIN_CONFIDENCE_SCORE
is the first argument; callers always leave the optional extraction_rate
argument at None, so the model computes cleaned/original directly. -/
def calculate_confidence_score (min_confidence_score : ℚ)
    (original_length cleaned_length : ℕ) : ℚ :=
  if original_length = 0 then min_confidence_score
  else
    let extraction_rate : ℚ := (cleaned_length : ℚ) / (original_length : ℚ)
    let confidence : ℚ :=
      if 7/10 ≤ extraction_rate then 95/100
      else if 5/10 ≤ extraction_rate then 85/100
      else if 3/10 ≤ extraction_rate then 70/100
      else if 1/10 ≤ extraction_rate then 1/2
      else min_confidence_score
    min confidence 1

/-- The three CJK ranges the remove_special_characters allow-list keeps
(CJK Unified Ideographs, Extension A, Compatibility Ideographs). -/
def isCJKChar (c : Char) : Bool :=
  (0x4e00 ≤ c.toNat && c.toNat ≤ 0x9fff) ||
  (0x3400 ≤ c.toNat && c.toNat ≤ 0x4dbf) ||
  (0xf900 ≤ c.toNat && c.toNat ≤ 0xfaff)

/-- Python whitespace (regex class \s over the characters str.strip also
removes): space, tab, newline, carriage return, form feed, vertical tab. -/
def isPySpace (c : Char) : Bool :=
  c == ' ' || c == '\t' || c == '\n' || c == '\x0d' || c == '\x0c' || c == '\x0b'

/-- Membership in the character allow-list of remove_special_characters with
preserve_unicode=True: the regex keeps \w, \s, the three CJK ranges and the
listed punctuation.  Python's Unicode-aware \w is modelled as ASCII
alphanumerics, underscore and CJK word characters (the scripts this pipeline
meets); the CJK ranges are also listed explicitly, exactly as in the source
pattern. -/
def charAllowed (c : Char) : Bool :=
  (c.isAlphanum || c == '_' || isCJKChar c) ||
  isPySpace c ||
  isCJKChar c ||
  (['-', '.', ',', '!', '?', ';', ':', '(', ')',
    '（', '）', '。', '，', '！', '？', '；', '：',
    '【', '】', '「', '」', '『', '』'] : List Char).contains c

/-- TextCleaner.remove_special_characters with preserve_unicode=True:
re.sub deletes every character outside the allow-list. -/
def remove_special_characters (text : List Char) : List Char :=
  text.filter charAllowed

/-- Collapse every run of the character a down to a single occurrence;
this is re.sub of a one-or-more repetition of a with a single a.  (A run of
length one is left as such, so the same function models both the space rule
and the two-or-more-newlines rule of normalize_whitespace.) -/
def collapseRuns (a : Char) : List Char → List Char
  | [] => []
  | [c] => [c]
  | c₁ :: c₂ :: rest =>
    if c₁ == a && c₂ == a then collapseRuns a (c₂ :: rest)
    else c₁ :: collapseRuns a (c₂ :: rest)

/-- Python str.strip(): drop whitespace from both ends. -/
def stripChars (l : List Char) : List Char :=
  ((l.dropWhile isPySpace).reverse.dropWhile isPySpace).reverse

/-- TextCleaner.normalize_whitespace: collapse runs of spaces, collapse runs
of newlines, replace tabs by spaces, then strip. -/
def normalize_whitespace (text : List Char) : List Char :=
  stripChars ((collapseRuns '\n' (collapseRuns ' ' text)).map
    (fun c => if c == '\t' then ' ' else c))

/-- Modelled from the spec: BeautifulSoup (an external library) parses HTML
into a tree of elements and text nodes; an element carries its tag name, its
class list and an optional id attribute. -/
inductive HtmlNode where
  | text : List Char → HtmlNode
  | elem : String → List String → Option String → List HtmlNode → HtmlNode

/-- Tags whose whole subtree clean_html decomposes (TextCleaner.REMOVE_TAGS). -/
def REMOVE_TAGS : List String :=
  ["script", "style", "meta", "link", "noscript", "iframe"]

/-- Modelled from the spec: whether clean_html decomposes an element — its tag
is in REMOVE_TAGS, or it matches one of the non-content selectors
nav, footer, sidebar, .sidebar, #sidebar, .nav, #nav, .header, #header,
.advertisement, .ad. -/
def isRemovedElem (tag : String) (classes : List String)
    (idAttr : Option String) : Bool :=
  REMOVE_TAGS.contains tag ||
  (["nav", "footer", "sidebar"] : List String).contains tag ||
  classes.any (fun c =>
    (["sidebar", "nav", "header", "advertisement", "ad"] : List String).contains c) ||
  (match idAttr with
   | some i => (["sidebar", "nav", "header"] : List String).contains i
   | none => false)

mutual

/-- Modelled from the spec: the text fragments of one node that survive
clean_html's decompose passes, in document order. -/
def nodeTexts : HtmlNode → List (List Char)
  | .text s => [s]
  | .elem tag classes idAttr children =>
    if isRemovedElem tag classes idAttr then [] else listTexts children

/-- Modelled from the spec: the surviving text fragments of a node list. -/
def listTexts : List HtmlNode → List (List Char)
  | [] => []
  | n :: ns => nodeTexts n ++ listTexts ns

end

/-- Join text fragments with a single space separator. -/
def joinSep : List (List Char) → List Char
  | [] => []
  | [x] => x
  | x :: y :: xs => x ++ ' ' :: joinSep (y :: xs)

/-- Modelled from the spec: soup.get_text(separator=' ', strip=True) strips
each surviving text fragment, drops the blank ones, and joins the rest with
single spaces. -/
def getText (nodes : List HtmlNode) : List Char :=
  joinSep (((listTexts nodes).map stripChars).filter (fun f => !f.isEmpty))

/-- TextCleaner.clean_html: parse the HTML (external BeautifulSoup, modelled
as an optional parsed document — none is the both-parsers-failed path, which
returns the empty string), decompose the denylisted elements, extract text. -/
def clean_html (doc : Option (List HtmlNode)) : List Char :=
  match doc with
  | none => []
  | some nodes => getText nodes

/-- The record clean_text returns (src/scraper/text_processor.py). -/
structure CleanResult where
  cleaned_text : List Char
  content_length : ℕ
  extraction_confidence : ℚ
  raw_text_length : ℕ
  status : String

/-- clean_text (src/scraper/text_processor.py): extract raw text, bail out
with status "failed" when it is empty, otherwise normalize whitespace,
remove special characters, score confidence, and flag short extractions as
"partial".  The source's catch-all except branch returns status "error"; the
model is total, so that branch is unreachable here. -/
def clean_text (min_confidence_score : ℚ)
    (doc : Option (List HtmlNode)) : CleanResult :=
  let raw_text := clean_html doc
  let raw_text_length := raw_text.length
  if raw_text_length = 0 then
    { cleaned_text := []
      content_length := 0
      extraction_confidence := min_confidence_score
      raw_text_length := 0
      status := "failed" }
  else
    let normalized_text := normalize_whitespace raw_text
    let cleaned_text := remove_special_characters normalized_text
    let cleaned_length := cleaned_text.length
    let confidence :=
      calculate_confidence_score min_confidence_score raw_text_length cleaned_length
    { cleaned_text := cleaned_text
      content_length := cleaned_length
      extraction_confidence := confidence
      raw_text_length := raw_text_length
      status := if cleaned_length < MIN_CONTENT_LENGTH then "partial" else "success" }

/-- A Python exception as the retry wrapper classifies it: a
requests.RequestException (network error, timeout, or the HTTP status error
raised by raise_for_status — HTTPError is a RequestException subclass)
versus any other exception, here the ValueError raised for an API error
payload.  The payloads identify concrete exceptions in theorems. -/
inductive PyExc where
  | reqExc : ℕ → PyExc
  | valueError : String → PyExc
deriving DecidableEq

/-- One HTTP response of the search provider as the source consumes it: a
JSON body with an optional items list, an HTTP status error raised by
raise_for_status, a network failure raised by session.get, or a JSON body
carrying an error payload. -/
inductive PageResp where
  | ok : List String → PageResp
  | httpError : ℕ → PageResp
  | netError : ℕ → PageResp
  | errorPayload : String → PageResp
deriving DecidableEq

/-- GoogleSearcher state (src/scraper/google_scraper.py): the key pools and
the rotation cursor.  The requests session carries no state the model
needs. -/
structure GoogleSearcher where
  api_keys : List String
  search_engine_ids : List String
  current_key_index : ℕ
deriving DecidableEq

/-- GoogleSearcher._rotate_api_key: advance the cursor by one modulo the
pool size; nothing else is assigned. -/
def rotate_api_key (s : GoogleSearcher) : GoogleSearcher :=
  { s with current_key_index := (s.current_key_index + 1) % s.api_keys.length }

/-- One attempt of GoogleSearcher.search_google, i.e. one run of its body:
request page start=1 (raise_for_status, then raise ValueError on an error
payload), request page start=11 (raise_for_status only — the source checks
no error payload on the second page, a body without items just adds
nothing), concatenate the items and cap them at
SCRAPER_RESULTS_PER_CELEBRITY.  Every exit path — the except block
included — rotates the API key exactly once. -/
def search_google_body (resp1 resp2 : PageResp) (s : GoogleSearcher) :
    GoogleSearcher × Except PyExc (List String) :=
  match resp1 with
  | .httpError code => (rotate_api_key s, .error (.reqExc code))
  | .netError code => (rotate_api_key s, .error (.reqExc code))
  | .errorPayload msg => (rotate_api_key s, .error (.valueError msg))
  | .ok urls1 =>
    match resp2 with
    | .httpError code => (rotate_api_key s, .error (.reqExc code))
    | .netError code => (rotate_api_key s, .error (.reqExc code))
    | .errorPayload _ =>
      (rotate_api_key s, .ok (urls1.take SCRAPER_RESULTS_PER_CELEBRITY))
    | .ok urls2 =>
      (rotate_api_key s, .ok ((urls1 ++ urls2).take SCRAPER_RESULTS_PER_CELEBRITY))

/-- The retry loop of the exponential_backoff decorator
(src/scraper/google_scraper.py): run the wrapped operation; return its value
on success; let anything that is not a requests.RequestException propagate
at once; on a RequestException, sleep (a pure no-op here) and retry while
attempts remain, and re-raise the last exception once they are exhausted.
The operation is a state transformer indexed by the attempt number; the
result records the final state, the number of the last attempt run, and
either the returned value or the exception raised past the wrapper. -/
def backoffRun (f : ℕ → σ → σ × Except PyExc α) :
    ℕ → ℕ → σ → σ × ℕ × Except PyExc α
  | 0, attempt, s =>
    match f attempt s with
    | (s', .ok v) => (s', attempt, .ok v)
    | (s', .error e) => (s', attempt, .error e)
  | r + 1, attempt, s =>
    match f attempt s with
    | (s', .ok v) => (s', attempt, .ok v)
    | (s', .error (.valueError msg)) => (s', attempt, .error (.valueError msg))
    | (s', .error (.reqExc _)) => backoffRun f r (attempt + 1) s'

/-- The exponential_backoff decorator around an operation: attempts are
numbered 1 through maxRetries (the source's SCRAPER_MAX_RETRIES), so
maxRetries - 1 retries remain after the first attempt. -/
def exponential_backoff (f : ℕ → σ → σ × Except PyExc α) (maxRetries : ℕ)
    (s : σ) : σ × ℕ × Except PyExc α :=
  backoffRun f (maxRetries - 1) 1 s

/-- GoogleSearcher.search_google as called through its decorator: one logical
query.  The oracle gives the provider's response for a given attempt number
and page start (1 or 11). -/
def search_google (oracle : ℕ → ℕ → PageResp) (maxRetries : ℕ)
    (s : GoogleSearcher) : GoogleSearcher × ℕ × Except PyExc (List String) :=
  exponential_backoff
    (fun attempt st => search_google_body (oracle attempt 1) (oracle attempt 11) st)
    maxRetries s

/-- The dictionary fetch_and_parse (WebScraper) and _fetch_single_url
(Crawl4AIScraper) return for one URL: a status string plus the content
fields.  Both functions catch every exception internally and always return
such a dictionary, so the fetch of a URL is modelled as a function into this
record. -/
structure FetchRes where
  status : String
  cleaned_text : List Char
  content_length : ℕ
  extraction_confidence : ℚ
  domain : String
  processing_time_ms : ℕ
  error : String
deriving DecidableEq

/-- One row of the successful-results output list of scrape_urls. -/
structure SuccessRec where
  original_url : String
  cleaned_text : List Char
  domain : String
  content_length : ℕ
  extraction_confidence : ℚ
  processing_time_ms : ℕ
deriving DecidableEq

/-- One row of the failed_urls output list of scrape_urls. -/
structure FailedUrl where
  url : String
  error : String
  status : String
deriving DecidableEq

/-- The successful-result dictionary built from a fetch result. -/
def mkSuccessRec (url : String) (r : FetchRes) : SuccessRec :=
  { original_url := url
    cleaned_text := r.cleaned_text
    domain := r.domain
    content_length := r.content_length
    extraction_confidence := r.extraction_confidence
    processing_time_ms := r.processing_time_ms }

/-- The failed-URL dictionary built from a fetch result. -/
def mkFailedUrl (url : String) (r : FetchRes) : FailedUrl :=
  { url := url, error := r.error, status := r.status }

/-- WebScraper.scrape_urls (src/scraper/google_scraper.py): fetch the URLs in
order (the inter-request sleep is a pure no-op here) and route each one into
the successful results or the failed URLs by the returned status. -/
def scrape_urls (fetch : String → FetchRes) :
    List String → List SuccessRec × List FailedUrl
  | [] => ([], [])
  | url :: rest =>
    let result := fetch url
    let r := scrape_urls fetch rest
    if result.status == "success" || result.status == "partial" then
      (mkSuccessRec url result :: r.1, r.2)
    else
      (r.1, mkFailedUrl url result :: r.2)

/-- The zip-and-partition loop of Crawl4AIScraper.scrape_urls_async
(src/scraper/crawl4ai_scraper.py): asyncio.gather returns results aligned
with the input order, and each (url, result) pair goes to exactly one of the
two output lists by status. -/
def partitionFetched : List (String × FetchRes) → List SuccessRec × List FailedUrl
  | [] => ([], [])
  | (url, result) :: rest =>
    let r := partitionFetched rest
    if result.status == "success" || result.status == "partial" then
      (mkSuccessRec url result :: r.1, r.2)
    else
      (r.1, mkFailedUrl url result :: r.2)

/-- Crawl4AIScraper.scrape_urls_async: gather one fetch result per URL, then
partition the zipped pairs.  An empty URL list short-circuits to two empty
lists, which coincides with the partition of the empty zip. -/
def scrape_urls_async (fetch : String → FetchRes) (urls : List String) :
    List SuccessRec × List FailedUrl :=
  partitionFetched (urls.zip (urls.map fetch))

/-- A mention record as handed to batch_insert_mentions. -/
structure Mention where
  celebrity_id : ℤ
  original_url : String
  cleaned_text : List Char
  domain : String
  content_length : ℕ
  extraction_confidence : ℚ
  processing_time_ms : ℕ
  time_stamp : String
deriving DecidableEq

/-- Modelled from the spec: the external MySQL store's celebrity_mentions
table is a row list, and its unique key on (celebrity_id, original_url)
makes an insert of an already-present key raise the duplicate-entry error. -/
def hasKey (db : List Mention) (cid : ℤ) (url : String) : Bool :=
  db.any (fun r => r.celebrity_id == cid && r.original_url == url)

/-- DatabaseHandler.batch_insert_mentions (src/scraper/database_handler.py):
insert the mentions one by one; an insert that hits the unique key raises
MySQL's duplicate-entry error, which the per-row except block counts as
skipped instead of re-raising; the whole set is committed at the end.  The
model is total: no duplicate ever escapes as an exception. -/
def batch_insert_mentions : List Mention → List Mention → List Mention × ℕ × ℕ
  | db, [] => (db, 0, 0)
  | db, m :: rest =>
    if hasKey db m.celebrity_id m.original_url then
      let r := batch_insert_mentions db rest
      (r.1, r.2.1, r.2.2 + 1)
    else
      let r := batch_insert_mentions (db ++ [m]) rest
      (r.1, r.2.1 + 1, r.2.2)

/-- BatchScraper.split_into_batches (src/scraper/scraping_pipeline.py): the
slices celebrities[i : i + batch_size] for i = 0, batch_size, 2*batch_size,
and so on; written as head-slice-then-rest recursion.  For batch_size = 0
Python's range raises ValueError, so the theorems take a positive size. -/
def split_into_batches (batch_size : ℕ) : List α → List (List α)
  | [] => []
  | x :: xs =>
    (x :: xs.take (batch_size - 1)) ::
      split_into_batches batch_size (xs.drop (batch_size - 1))
termination_by l => l.length
decreasing_by simp [List.length_drop]; omega

/-- Bounded-length induction for split_into_batches: the batches concatenate
back to the input list. -/
theorem split_into_batches_join_aux {α : Type} (bs : ℕ) :
    ∀ (n : ℕ) (l : List α), l.length ≤ n →
      (split_into_batches bs l).flatten = l := by
  intro n
  induction n with
  | zero =>
    intro l hl
    cases l with
    | nil => simp [split_into_batches]
    | cons x xs => simp at hl
  | succ n ih =>
    intro l hl
    cases l with
    | nil => simp [split_into_batches]
    | cons x xs =>
      have hrec := ih (xs.drop (bs - 1)) (by simp [List.length_drop] at hl ⊢; omega)
      simp only [split_into_batches, List.flatten_cons, hrec, List.cons_append]
      rw [List.take_append_drop]

/-- Bounded-length induction for split_into_batches: the number of batches
is the ceiling of length over batch size. -/
theorem split_into_batches_length_aux {α : Type} (bs : ℕ) (hbs : 0 < bs) :
    ∀ (n : ℕ) (l : List α), l.length ≤ n →
      (split_into_batches bs l).length = (l.length + bs - 1) / bs := by
  intro n
  induction n with
  | zero =>
    intro l hl
    cases l with
    | nil => simp [split_into_batches, Nat.div_eq_of_lt (by omega : bs - 1 < bs)]
    | cons x xs => simp at hl
  | succ n ih =>
    intro l hl
    cases l with
    | nil => simp [split_into_batches, Nat.div_eq_of_lt (by omega : bs - 1 < bs)]
    | cons x xs =>
      have hrec := ih (xs.drop (bs - 1)) (by simp [List.length_drop] at hl ⊢; omega)
      simp only [split_into_batches, List.length_cons, hrec, List.length_drop]
      have harg : xs.length + 1 + bs - 1 = xs.length + bs := by omega
      rw [harg, Nat.add_div_right _ hbs]
      by_cases hle : bs - 1 ≤ xs.length
      · have h1 : xs.length - (bs - 1) + bs - 1 = xs.length := by omega
        rw [h1]
      · have h1 : xs.length - (bs - 1) = 0 := by omega
        rw [h1, Nat.zero_add]
        rw [Nat.div_eq_of_lt (by omega : bs - 1 < bs),
            Nat.div_eq_of_lt (by omega : xs.length < bs)]

/-- C8: for every roster and positive batch size, split_into_batches yields
exactly ceil(M/B) = (M + B - 1) / B batches whose concatenation is the
original roster in order — so no entity is omitted or duplicated. -/
theorem split_into_batches_partition {α : Type} (bs : ℕ) (hbs : 0 < bs)
    (l : List α) :
    (split_into_batches bs l).length = (l.length + bs - 1) / bs ∧
    (split_into_batches bs l).flatten = l :=
  ⟨split_into_batches_length_aux bs hbs l.length l le_rfl,
   split_into_batches_join_aux bs l.length l le_rfl⟩

/-- Witness for C8 at roster [1, 2, 3] and batch size 2. -/
theorem split_into_batches_partition_witness :
    0 < 2 ∧
    ((split_into_batches 2 [1, 2, 3]).length = (3 + 2 - 1) / 2 ∧
     (split_into_batches 2 [1, 2, 3]).flatten = [1, 2, 3]) :=
  ⟨by decide, split_into_batches_partition 2 (by decide) [1, 2, 3]⟩

/-- The confidence step function exactly as the spec words it, for
comparison with the source's calculate_confidence_score: ratio ≥ 0.70 →
0.95, ≥ 0.50 → 0.85, ≥ 0.30 → 0.70, ≥ 0.10 → 0.50, else the configured
floor; ratio undefined (raw length 0) → floor. -/
def spec_confidence_step (floor : ℚ) (original cleaned : ℕ) : ℚ :=
  if original = 0 then floor
  else
    let r : ℚ := (cleaned : ℚ) / (original : ℚ)
    if 7/10 ≤ r then 95/100
    else if 5/10 ≤ r then 85/100
    else if 3/10 ≤ r then 70/100
    else if 1/10 ≤ r then 1/2
    else floor

/-- C2: for every configured floor value at most 1 (the default is 0.5) the
source's confidence computation is exactly the spec's step function of the
preservation ratio, the raw-length-0 case included; and whenever the
extracted raw text is empty, clean_text reports status "failed" with the
floor as its confidence. -/
theorem calculate_confidence_score_step (mc : ℚ) (hmc : mc ≤ 1)
    (original cleaned : ℕ) :
    calculate_confidence_score mc original cleaned =
      spec_confidence_step mc original cleaned ∧
    (∀ doc : Option (List HtmlNode), (clean_html doc).length = 0 →
      (clean_text mc doc).status = "failed" ∧
      (clean_text mc doc).extraction_confidence = mc) := by
  constructor
  · simp only [calculate_confidence_score, spec_confidence_step]
    split_ifs <;>
      first
        | rfl
        | exact min_eq_left hmc
        | exact min_eq_left (by norm_num)
  · intro doc h
    simp [clean_text, h]

/-- Witness for C2 at floor 1/2, original length 10, cleaned length 7, and
the unparseable document. -/
theorem calculate_confidence_score_step_witness :
    calculate_confidence_score (1/2) 10 7 = spec_confidence_step (1/2) 10 7 ∧
    (clean_text (1/2) none).status = "failed" ∧
    (clean_text (1/2) none).extraction_confidence = 1/2 :=
  ⟨(calculate_confidence_score_step (1/2) (by norm_num) 10 7).1,
   (calculate_confidence_score_step (1/2) (by norm_num) 10 7).2 none rfl⟩

/-- C9 counterexample: with the configurable floor at 0.9, ratio 0.15 scores
0.5 while the smaller ratio 0.05 scores 0.9 — confidence decreases as the
preservation ratio grows, so monotonicity fails for that configured floor. -/
theorem confidence_monotonicity_counterexample :
    calculate_confidence_score (9/10) 100 15 <
      calculate_confidence_score (9/10) 100 5 := by
  norm_num [calculate_confidence_score]

/-- C9 (amended): confidence is non-decreasing in the preservation ratio for
every configured floor value at most 0.5 (the default); a floor above 0.5
breaks monotonicity. -/
theorem confidence_monotone (mc : ℚ) (hmc : mc ≤ 1/2) (original : ℕ)
    (hpos : 0 < original) (c₁ c₂ : ℕ) (h : c₁ < c₂) :
    calculate_confidence_score mc original c₁ ≤
      calculate_confidence_score mc original c₂ := by
  have hne : original ≠ 0 := hpos.ne'
  have hopos : (0 : ℚ) < (original : ℚ) := by exact_mod_cast hpos
  have hr : (c₁ : ℚ) / (original : ℚ) ≤ (c₂ : ℚ) / (original : ℚ) :=
    (div_le_div_iff_of_pos_right hopos).mpr (by exact_mod_cast h.le)
  simp only [calculate_confidence_score, if_neg hne]
  apply min_le_min _ le_rfl
  split_ifs <;> linarith

/-- Witness for C9 (amended) at floor 1/2, original length 10, ratios 0.1
and 0.9. -/
theorem confidence_monotone_witness :
    calculate_confidence_score (1/2) 10 1 ≤ calculate_confidence_score (1/2) 10 9 :=
  confidence_monotone (1/2) (by norm_num) 10 (by norm_num) 1 9 (by norm_num)

/-- C10: clean_text is total over every parse outcome (a parsed document or
a parser failure), always reports one of the four statuses, and always
returns a content_length equal to the length of the cleaned text.  (The
model being total, the source's catch-all "error" status never arises.) -/
theorem clean_text_total_status (mc : ℚ) (doc : Option (List HtmlNode)) :
    ((clean_text mc doc).status = "success" ∨
     (clean_text mc doc).status = "partial" ∨
     (clean_text mc doc).status = "failed" ∨
     (clean_text mc doc).status = "error") ∧
    (clean_text mc doc).content_length = (clean_text mc doc).cleaned_text.length := by
  unfold clean_text
  by_cases h0 : (clean_html doc).length = 0
  · simp [h0]
  · by_cases hshort :
      (remove_special_characters (normalize_whitespace (clean_html doc))).length <
        MIN_CONTENT_LENGTH
    · simp [h0, hshort]
    · simp [h0, hshort]

/-- Characters in the CJK ranges are not Python whitespace. -/
theorem isCJKChar_not_pySpace {c : Char} (h : isCJKChar c = true) :
    isPySpace c = false := by
  cases hs : isPySpace c
  · rfl
  · exfalso
    simp only [isPySpace, Bool.or_eq_true, beq_iff_eq] at hs
    rcases hs with ((((rfl | rfl) | rfl) | rfl) | rfl) | rfl <;>
      exact absurd h (by decide)

/-- A CJK character differs from each whitespace character the
normalization pass touches. -/
theorem isCJKChar_ne_of (c : Char) (h : isCJKChar c = true) :
    c ≠ ' ' ∧ c ≠ '\n' ∧ c ≠ '\t' := by
  refine ⟨?_, ?_, ?_⟩ <;> rintro rfl <;> exact absurd h (by decide)

/-- CJK characters are in the remove_special_characters allow-list. -/
theorem isCJKChar_allowed {c : Char} (h : isCJKChar c = true) :
    charAllowed c = true := by
  simp [charAllowed, h]

/-- collapseRuns deletes only copies of the collapsed character. -/
theorem count_collapseRuns (a c : Char) (h : c ≠ a) :
    ∀ l : List Char, (collapseRuns a l).count c = l.count c := by
  intro l
  induction l with
  | nil => rfl
  | cons c₁ rest ih =>
    cases rest with
    | nil => rfl
    | cons c₂ rest₂ =>
      simp only [collapseRuns]
      by_cases h₁ : (c₁ == a && c₂ == a) = true
      · rw [if_pos h₁, ih]
        have hc₁ : c₁ = a := eq_of_beq ((Bool.and_eq_true _ _).mp h₁).1
        subst hc₁
        exact (List.count_cons_of_ne h _).symm
      · rw [if_neg h₁, List.count_cons, List.count_cons, ih]

/-- dropWhile removes only characters the predicate accepts, so the count of
a rejected character is unchanged. -/
theorem count_dropWhile (p : Char → Bool) (c : Char) (hc : p c = false) :
    ∀ l : List Char, (l.dropWhile p).count c = l.count c := by
  intro l
  induction l with
  | nil => rfl
  | cons x xs ih =>
    by_cases hx : p x = true
    · have hxc : c ≠ x := fun he => by rw [he, hx] at hc; cases hc
      rw [List.dropWhile_cons, if_pos hx, ih, List.count_cons_of_ne hxc]
    · rw [List.dropWhile_cons, if_neg hx]

/-- str.strip() removes only whitespace, so the count of a non-whitespace
character is unchanged. -/
theorem count_stripChars (c : Char) (hc : isPySpace c = false) (l : List Char) :
    (stripChars l).count c = l.count c := by
  unfold stripChars
  rw [List.count_reverse, count_dropWhile _ _ hc, List.count_reverse,
      count_dropWhile _ _ hc]

/-- The tab-to-space replacement keeps the count of any character that is
neither a tab nor a space. -/
theorem count_map_tab (c : Char) (h₁ : c ≠ ' ') (h₂ : c ≠ '\t') (l : List Char) :
    (l.map (fun x => if x == '\t' then ' ' else x)).count c = l.count c := by
  induction l with
  | nil => rfl
  | cons x xs ih =>
    by_cases hx : x = '\t'
    · subst hx
      have hmap : List.map (fun y => if y == '\t' then ' ' else y) ('\t' :: xs) =
          ' ' :: List.map (fun y => if y == '\t' then ' ' else y) xs := rfl
      rw [hmap, List.count_cons_of_ne h₁, List.count_cons_of_ne h₂, ih]
    · have hne : ¬((x == '\t') = true) := by simpa using hx
      have hmap : List.map (fun y => if y == '\t' then ' ' else y) (x :: xs) =
          x :: List.map (fun y => if y == '\t' then ' ' else y) xs := by
        rw [List.map_cons, if_neg hne]
      rw [hmap, List.count_cons, List.count_cons, ih]

/-- normalize_whitespace keeps the count of every non-whitespace
character. -/
theorem count_normalize (c : Char) (hs : isPySpace c = false) (l : List Char) :
    (normalize_whitespace l).count c = l.count c := by
  have h₁ : c ≠ ' ' := fun he => by subst he; exact absurd hs (by decide)
  have h₂ : c ≠ '\n' := fun he => by subst he; exact absurd hs (by decide)
  have h₃ : c ≠ '\t' := fun he => by subst he; exact absurd hs (by decide)
  unfold normalize_whitespace
  rw [count_stripChars c hs, count_map_tab c h₁ h₃,
      count_collapseRuns '\n' c h₂, count_collapseRuns ' ' c h₁]

/-- Joining fragments with space separators adds no occurrence of a
non-space character. -/
theorem count_joinSep (c : Char) (h : c ≠ ' ') :
    ∀ xs : List (List Char), (joinSep xs).count c = (xs.map (List.count c)).sum := by
  intro xs
  induction xs with
  | nil => rfl
  | cons x ys ih =>
    cases ys with
    | nil => simp [joinSep]
    | cons y zs =>
      simp only [joinSep, List.count_append, List.count_cons_of_ne h,
        List.map_cons, List.sum_cons]
      rw [ih, List.map_cons, List.sum_cons]

/-- Stripping each fragment and dropping the blank ones keeps the total
count of a non-whitespace character. -/
theorem sum_stripped_filter (c : Char) (hs : isPySpace c = false) :
    ∀ frags : List (List Char),
      (((frags.map stripChars).filter (fun f => !f.isEmpty)).map
        (List.count c)).sum = (frags.map (List.count c)).sum := by
  intro frags
  induction frags with
  | nil => rfl
  | cons f fs ih =>
    simp only [List.map_cons, List.filter_cons]
    by_cases hf : (!(stripChars f).isEmpty) = true
    · rw [if_pos hf]
      simp only [List.map_cons, List.sum_cons]
      rw [ih, count_stripChars c hs]
    · rw [if_neg hf]
      have hemp : stripChars f = [] := by
        have hie : (stripChars f).isEmpty = true := by simpa using hf
        exact List.isEmpty_iff.mp hie
      have h0 : f.count c = 0 := by
        have hcs := count_stripChars c hs f
        rw [hemp] at hcs
        simpa using hcs.symm
      simp [List.sum_cons, h0, ih]

/-- get_text keeps the total count of a non-whitespace character over the
surviving text fragments. -/
theorem count_getText (c : Char) (hs : isPySpace c = false) (h' : c ≠ ' ')
    (nodes : List HtmlNode) :
    (getText nodes).count c = ((listTexts nodes).map (List.count c)).sum := by
  unfold getText
  rw [count_joinSep c h', sum_stripped_filter c hs]

/-- The parsed document of the spec scenario: a script element holding
alert(1) followed by a paragraph of Traditional Chinese text. -/
def exampleDoc : List HtmlNode :=
  [.elem "script" [] none [.text "alert(1)".toList],
   .elem "p" [] none [.text "周杰倫新聞".toList]]

/-- C7: the cleaned text of clean_text keeps every CJK character of the text
nodes that survive the script/navigation removal, occurrence for occurrence
(its count of each CJK character equals the total count over the surviving
text fragments); and on the concrete scenario document the cleaned text
contains the Chinese headline and not the script payload. -/
theorem cjk_preservation :
    (∀ (mc : ℚ) (doc : List HtmlNode) (c : Char), isCJKChar c = true →
      ((clean_text mc (some doc)).cleaned_text).count c =
        ((listTexts doc).map (List.count c)).sum) ∧
    ("周杰倫新聞".toList <:+:
        (clean_text MIN_CONFIDENCE_SCORE (some exampleDoc)).cleaned_text ∧
      ¬ ("alert".toList <:+:
        (clean_text MIN_CONFIDENCE_SCORE (some exampleDoc)).cleaned_text)) := by
  constructor
  · intro mc doc c h
    have hs := isCJKChar_not_pySpace h
    obtain ⟨h₁, h₂, h₃⟩ := isCJKChar_ne_of c h
    have key : (clean_html (some doc)).count c =
        ((listTexts doc).map (List.count c)).sum := count_getText c hs h₁ doc
    simp only [clean_text]
    by_cases h0 : (clean_html (some doc)).length = 0
    · rw [if_pos h0]
      have hnil : clean_html (some doc) = [] := List.length_eq_zero.mp h0
      rw [hnil] at key
      dsimp only
      rw [← key]
    · rw [if_neg h0]
      dsimp only
      unfold remove_special_characters
      rw [List.count_filter (isCJKChar_allowed h), count_normalize c hs, key]
  · have h3 : (clean_text MIN_CONFIDENCE_SCORE (some exampleDoc)).cleaned_text =
        "周杰倫新聞".toList := by decide
    rw [h3]
    exact ⟨List.infix_rfl, by decide⟩

/-- Witness for C7 at the scenario document and the character 周. -/
theorem cjk_preservation_witness :
    isCJKChar '周' = true ∧
    ((clean_text (1/2) (some exampleDoc)).cleaned_text).count '周' =
      ((listTexts exampleDoc).map (List.count '周')).sum :=
  ⟨by decide, cjk_preservation.1 (1/2) exampleDoc '周' (by decide)⟩

/-- scrape_urls routes every URL to exactly one output list, so the output
lengths add up to the input length. -/
theorem scrape_urls_length (fetch : String → FetchRes) :
    ∀ urls : List String,
      (scrape_urls fetch urls).1.length + (scrape_urls fetch urls).2.length =
        urls.length := by
  intro urls
  induction urls with
  | nil => rfl
  | cons u rest ih =>
    simp only [scrape_urls]
    by_cases h : ((fetch u).status == "success" || (fetch u).status == "partial") = true
    · rw [if_pos h]
      simp only [List.length_cons]
      omega
    · rw [if_neg h]
      simp only [List.length_cons]
      omega

/-- scrape_urls preserves each URL's multiplicity across the two outputs. -/
theorem scrape_urls_count (fetch : String → FetchRes) (u : String) :
    ∀ urls : List String,
      ((scrape_urls fetch urls).1.map SuccessRec.original_url).count u +
        ((scrape_urls fetch urls).2.map FailedUrl.url).count u = urls.count u := by
  intro urls
  induction urls with
  | nil => rfl
  | cons v rest ih =>
    simp only [scrape_urls]
    by_cases h : ((fetch v).status == "success" || (fetch v).status == "partial") = true
    · rw [if_pos h]
      simp only [List.map_cons, List.count_cons, mkSuccessRec]
      omega
    · rw [if_neg h]
      simp only [List.map_cons, List.count_cons, mkFailedUrl]
      omega

/-- A URL among the successful results of scrape_urls has a success or
partial fetch status. -/
theorem scrape_urls_mem_success (fetch : String → FetchRes) (u : String) :
    ∀ urls : List String,
      u ∈ (scrape_urls fetch urls).1.map SuccessRec.original_url →
        ((fetch u).status == "success" || (fetch u).status == "partial") = true := by
  intro urls
  induction urls with
  | nil => intro hmem; simp [scrape_urls] at hmem
  | cons v rest ih =>
    intro hmem
    simp only [scrape_urls] at hmem
    by_cases h : ((fetch v).status == "success" || (fetch v).status == "partial") = true
    · rw [if_pos h] at hmem
      simp only [List.map_cons, List.mem_cons, mkSuccessRec] at hmem
      rcases hmem with rfl | hmem
      · exact h
      · exact ih hmem
    · rw [if_neg h] at hmem
      exact ih hmem

/-- A URL among the failed URLs of scrape_urls has a status that is neither
success nor partial. -/
theorem scrape_urls_mem_failed (fetch : String → FetchRes) (u : String) :
    ∀ urls : List String,
      u ∈ (scrape_urls fetch urls).2.map FailedUrl.url →
        ((fetch u).status == "success" || (fetch u).status == "partial") = false := by
  intro urls
  induction urls with
  | nil => intro hmem; simp [scrape_urls] at hmem
  | cons v rest ih =>
    intro hmem
    simp only [scrape_urls] at hmem
    by_cases h : ((fetch v).status == "success" || (fetch v).status == "partial") = true
    · rw [if_pos h] at hmem
      exact ih hmem
    · rw [if_neg h] at hmem
      simp only [List.map_cons, List.mem_cons, mkFailedUrl] at hmem
      rcases hmem with rfl | hmem
      · exact Bool.not_eq_true _ |>.mp h
      · exact ih hmem

/-- The zip-based partition of scrape_urls_async computes exactly the
sequential partition of scrape_urls. -/
theorem scrape_urls_async_eq (fetch : String → FetchRes) (urls : List String) :
    scrape_urls_async fetch urls = scrape_urls fetch urls := by
  unfold scrape_urls_async
  induction urls with
  | nil => rfl
  | cons u rest ih =>
    simp only [List.map_cons, List.zip_cons_cons, partitionFetched, scrape_urls]
    rw [show rest.zip (List.map fetch rest) =
        List.zipWith Prod.mk rest (List.map fetch rest) from rfl] at ih
    rw [ih]

/-- C1: both batch fetch operations return a partition of the input URLs —
the output lengths add up to the input length, each URL occurs across the
two outputs exactly as often as in the input, and no URL appears in both
outputs. -/
theorem scrape_urls_fetch_completeness (fetch : String → FetchRes)
    (urls : List String) :
    ((scrape_urls fetch urls).1.length + (scrape_urls fetch urls).2.length =
        urls.length ∧
     (scrape_urls_async fetch urls).1.length +
        (scrape_urls_async fetch urls).2.length = urls.length) ∧
    (∀ u : String,
      ((scrape_urls fetch urls).1.map SuccessRec.original_url).count u +
        ((scrape_urls fetch urls).2.map FailedUrl.url).count u = urls.count u ∧
      ((scrape_urls_async fetch urls).1.map SuccessRec.original_url).count u +
        ((scrape_urls_async fetch urls).2.map FailedUrl.url).count u =
          urls.count u) ∧
    (∀ u : String,
      u ∈ (scrape_urls fetch urls).1.map SuccessRec.original_url →
        u ∉ (scrape_urls fetch urls).2.map FailedUrl.url) ∧
    (∀ u : String,
      u ∈ (scrape_urls_async fetch urls).1.map SuccessRec.original_url →
        u ∉ (scrape_urls_async fetch urls).2.map FailedUrl.url) := by
  have hasync := scrape_urls_async_eq fetch urls
  refine ⟨⟨scrape_urls_length fetch urls, ?_⟩,
    fun u => ⟨scrape_urls_count fetch u urls, ?_⟩,
    fun u hmem hmem' => ?_, fun u hmem hmem' => ?_⟩
  · rw [hasync]
    exact scrape_urls_length fetch urls
  · rw [hasync]
    exact scrape_urls_count fetch u urls
  · have h1 := scrape_urls_mem_success fetch u urls hmem
    have h2 := scrape_urls_mem_failed fetch u urls hmem'
    rw [h1] at h2
    cases h2
  · rw [hasync] at hmem hmem'
    have h1 := scrape_urls_mem_success fetch u urls hmem
    have h2 := scrape_urls_mem_failed fetch u urls hmem'
    rw [h1] at h2
    cases h2

/-- A fetch stub that always reports success. -/
def fetchOkStub : String → FetchRes := fun _ =>
  { status := "success", cleaned_text := [], content_length := 0,
    extraction_confidence := 1/2, domain := "", processing_time_ms := 0,
    error := "" }

/-- Witness for C1 at a one-URL list and the always-success fetch stub. -/
theorem scrape_urls_fetch_completeness_witness :
    "a" ∈ (scrape_urls fetchOkStub ["a"]).1.map SuccessRec.original_url ∧
    "a" ∉ (scrape_urls fetchOkStub ["a"]).2.map FailedUrl.url :=
  ⟨by decide,
   (scrape_urls_fetch_completeness fetchOkStub ["a"]).2.2.1 "a" (by decide)⟩

/-- Number of store rows carrying one (celebrity_id, original_url) key. -/
def countKey (db : List Mention) (cid : ℤ) (url : String) : ℕ :=
  (db.filter (fun r => r.celebrity_id == cid && r.original_url == url)).length

/-- A key the store does not hold has row count zero. -/
theorem countKey_eq_zero (db : List Mention) (cid : ℤ) (url : String)
    (h : hasKey db cid url = false) : countKey db cid url = 0 := by
  unfold countKey
  rw [List.length_eq_zero, List.filter_eq_nil_iff]
  intro r hr
  simp only [hasKey, List.any_eq_false] at h
  exact h r hr

/-- batch_insert_mentions accounts for every attempted mention as either
inserted or skipped. -/
theorem batch_insert_accounting :
    ∀ (ms db : List Mention),
      (batch_insert_mentions db ms).2.1 + (batch_insert_mentions db ms).2.2 =
        ms.length := by
  intro ms
  induction ms with
  | nil => intro db; rfl
  | cons m rest ih =>
    intro db
    simp only [batch_insert_mentions, List.length_cons]
    by_cases hk : hasKey db m.celebrity_id m.original_url = true
    · rw [if_pos hk]
      dsimp only
      have := ih db
      omega
    · rw [if_neg hk]
      dsimp only
      have := ih (db ++ [m])
      omega

/-- C3: inserting the same (entityId, originalUrl) mention twice — within
one call or across two calls — yields one insert and one skip, the store
ends with exactly one row for that key, and in general every attempted
mention is counted as inserted or skipped (never raised). -/
theorem batch_insert_mentions_dedup (db : List Mention) (m : Mention)
    (h : hasKey db m.celebrity_id m.original_url = false) :
    ((batch_insert_mentions db [m, m]).2.1 = 1 ∧
     (batch_insert_mentions db [m, m]).2.2 = 1 ∧
     countKey (batch_insert_mentions db [m, m]).1
       m.celebrity_id m.original_url = 1) ∧
    ((batch_insert_mentions db [m]).2.1 = 1 ∧
     (batch_insert_mentions db [m]).2.2 = 0 ∧
     (batch_insert_mentions (batch_insert_mentions db [m]).1 [m]).2.1 = 0 ∧
     (batch_insert_mentions (batch_insert_mentions db [m]).1 [m]).2.2 = 1 ∧
     countKey (batch_insert_mentions (batch_insert_mentions db [m]).1 [m]).1
       m.celebrity_id m.original_url = 1) ∧
    (∀ ms : List Mention,
      (batch_insert_mentions db ms).2.1 + (batch_insert_mentions db ms).2.2 =
        ms.length) := by
  have hk2 : hasKey (db ++ [m]) m.celebrity_id m.original_url = true := by
    simp [hasKey, List.any_append]
  have e1 : batch_insert_mentions db [m] = (db ++ [m], 1, 0) := by
    simp [batch_insert_mentions, h]
  have e2 : batch_insert_mentions (db ++ [m]) [m] = (db ++ [m], 0, 1) := by
    simp [batch_insert_mentions, hk2]
  have e3 : batch_insert_mentions db [m, m] = (db ++ [m], 1, 1) := by
    simp [batch_insert_mentions, h, hk2]
  have hc0 : countKey db m.celebrity_id m.original_url = 0 :=
    countKey_eq_zero db _ _ h
  have hc1 : countKey (db ++ [m]) m.celebrity_id m.original_url = 1 := by
    unfold countKey at hc0 ⊢
    rw [List.filter_append, List.length_append]
    have hfm : List.filter
        (fun r => r.celebrity_id == m.celebrity_id &&
          r.original_url == m.original_url) [m] = [m] := by
      simp
    rw [hfm]
    simp only [List.length_singleton]
    omega
  refine ⟨⟨?_, ?_, ?_⟩, ⟨?_, ?_, ?_, ?_, ?_⟩, fun ms => batch_insert_accounting ms db⟩
  · rw [e3]
  · rw [e3]
  · rw [e3]
    exact hc1
  · rw [e1]
  · rw [e1]
  · rw [e1, e2]
  · rw [e1, e2]
  · rw [e1, e2]
    exact hc1

/-- A concrete mention for the C3 witness. -/
def mention₀ : Mention :=
  { celebrity_id := 1, original_url := "https://site1.com/article1",
    cleaned_text := [], domain := "site1.com", content_length := 0,
    extraction_confidence := 85/100, processing_time_ms := 10,
    time_stamp := "2024-01-01" }

/-- Witness for C3 at an empty store and a concrete mention. -/
theorem batch_insert_mentions_dedup_witness :
    (batch_insert_mentions [] [mention₀, mention₀]).2.1 = 1 ∧
    (batch_insert_mentions [] [mention₀, mention₀]).2.2 = 1 ∧
    countKey (batch_insert_mentions [] [mention₀, mention₀]).1
      mention₀.celebrity_id mention₀.original_url = 1 :=
  (batch_insert_mentions_dedup [] mention₀ rfl).1

/-- The retry loop never reports an attempt number below the one it started
at. -/
theorem backoffRun_attempt_ge {σ α : Type} (f : ℕ → σ → σ × Except PyExc α) :
    ∀ (r a : ℕ) (s : σ), a ≤ (backoffRun f r a s).2.1 := by
  intro r
  induction r with
  | zero =>
    intro a s
    rcases hfa : f a s with ⟨s', e⟩
    rcases e with e | v <;> simp [backoffRun, hfa]
  | succ r ih =>
    intro a s
    rcases hfa : f a s with ⟨s', e⟩
    rcases e with e | v
    · rcases e with code | msg
      · simp only [backoffRun, hfa]
        have := ih (a + 1) s'
        omega
      · simp [backoffRun, hfa]
    · simp [backoffRun, hfa]

/-- Every exit path of the search body rotates the cursor exactly once and
changes nothing else. -/
theorem search_google_body_rotates (resp1 resp2 : PageResp)
    (s : GoogleSearcher) :
    (search_google_body resp1 resp2 s).1.current_key_index =
        (s.current_key_index + 1) % s.api_keys.length ∧
    (search_google_body resp1 resp2 s).1.api_keys = s.api_keys ∧
    (search_google_body resp1 resp2 s).1.search_engine_ids =
      s.search_engine_ids := by
  cases resp1 <;> cases resp2 <;> simp [search_google_body, rotate_api_key]

/-- Through the retry loop, a body that advances the cursor by exactly one
per attempt and touches nothing else advances it by the number of attempts
run. -/
theorem backoffRun_rotations
    (f : ℕ → GoogleSearcher → GoogleSearcher × Except PyExc (List String))
    (hf : ∀ attempt st,
      (f attempt st).1.current_key_index =
          (st.current_key_index + 1) % st.api_keys.length ∧
      (f attempt st).1.api_keys = st.api_keys ∧
      (f attempt st).1.search_engine_ids = st.search_engine_ids) :
    ∀ (r a : ℕ) (s : GoogleSearcher),
      (backoffRun f r a s).1.current_key_index =
        (s.current_key_index + ((backoffRun f r a s).2.1 + 1 - a)) %
          s.api_keys.length ∧
      (backoffRun f r a s).1.api_keys = s.api_keys ∧
      (backoffRun f r a s).1.search_engine_ids = s.search_engine_ids := by
  intro r
  induction r with
  | zero =>
    intro a s
    rcases hfa : f a s with ⟨s', e⟩
    have hs' := hf a s
    rw [hfa] at hs'
    rcases e with e | v
    · simp only [backoffRun, hfa]
      refine ⟨?_, hs'.2.1, hs'.2.2⟩
      rw [hs'.1]
      congr 1
      omega
    · simp only [backoffRun, hfa]
      refine ⟨?_, hs'.2.1, hs'.2.2⟩
      rw [hs'.1]
      congr 1
      omega
  | succ r ih =>
    intro a s
    rcases hfa : f a s with ⟨s', e⟩
    have hs' := hf a s
    rw [hfa] at hs'
    rcases e with e | v
    · rcases e with code | msg
      · simp only [backoffRun, hfa]
        have hih := ih (a + 1) s'
        have hge := backoffRun_attempt_ge f r (a + 1) s'
        refine ⟨?_, ?_, ?_⟩
        · rw [hih.1, hs'.1, hs'.2.1, Nat.mod_add_mod]
          congr 1
          omega
        · rw [hih.2.1, hs'.2.1]
        · rw [hih.2.2, hs'.2.2]
      · simp only [backoffRun, hfa]
        refine ⟨?_, hs'.2.1, hs'.2.2⟩
        rw [hs'.1]
        congr 1
        omega
    · simp only [backoffRun, hfa]
      refine ⟨?_, hs'.2.1, hs'.2.2⟩
      rw [hs'.1]
      congr 1
      omega

/-- Five configured key pairs with the cursor at 0. -/
def searcher₀ : GoogleSearcher :=
  { api_keys := ["k1", "k2", "k3", "k4", "k5"]
    search_engine_ids := ["e1", "e2", "e3", "e4", "e5"]
    current_key_index := 0 }

/-- Oracle: the first attempt raises a network RequestException, later
attempts succeed with one result URL on the first page and none on the
second. -/
def oracleRetryOnce : ℕ → ℕ → PageResp := fun attempt start =>
  if attempt = 1 then .netError 7
  else if start = 1 then .ok ["https://example.com/a"]
  else .ok []

/-- C4 counterexample: a logical query that needs one retry advances the
rotation cursor twice — the final cursor is 2, not the 1 that advancing
exactly once per logical query would give. -/
theorem search_rotation_counterexample :
    (search_google oracleRetryOnce SCRAPER_MAX_RETRIES
        searcher₀).1.current_key_index = 2 ∧
    (searcher₀.current_key_index + 1) % searcher₀.api_keys.length = 1 := by
  constructor <;> rfl

/-- C4 (amended): the cursor advances exactly once per attempt — by one
modulo the pool size, on success and failure alike, touching no other field
of the searcher — so a logical query advances it by the number of attempts
it runs (one when no retry fires). -/
theorem rotate_once_per_attempt (s : GoogleSearcher) :
    (∀ resp1 resp2 : PageResp,
      (search_google_body resp1 resp2 s).1.current_key_index =
          (s.current_key_index + 1) % s.api_keys.length ∧
      (search_google_body resp1 resp2 s).1.api_keys = s.api_keys ∧
      (search_google_body resp1 resp2 s).1.search_engine_ids =
        s.search_engine_ids) ∧
    (∀ (oracle : ℕ → ℕ → PageResp) (maxRetries : ℕ),
      (search_google oracle maxRetries s).1.current_key_index =
        (s.current_key_index + (search_google oracle maxRetries s).2.1) %
          s.api_keys.length ∧
      (search_google oracle maxRetries s).1.api_keys = s.api_keys ∧
      (search_google oracle maxRetries s).1.search_engine_ids =
        s.search_engine_ids) := by
  constructor
  · intro resp1 resp2
    exact search_google_body_rotates resp1 resp2 s
  · intro oracle maxRetries
    unfold search_google exponential_backoff
    have h := backoffRun_rotations
      (fun attempt st => search_google_body (oracle attempt 1) (oracle attempt 11) st)
      (fun attempt st => search_google_body_rotates _ _ st)
      (maxRetries - 1) 1 s
    refine ⟨?_, h.2.1, h.2.2⟩
    rw [h.1, Nat.add_sub_cancel]

/-- Oracle whose every attempt raises a network RequestException carrying
the attempt number. -/
def oracleAlwaysNetError : ℕ → ℕ → PageResp := fun attempt _ => .netError attempt

/-- C5 counterexample: with every attempt failing transiently, the logical
call's outcome is the re-raised exception of the last attempt (attempt 3),
not a value returned to the caller. -/
theorem backoff_raises_counterexample :
    (search_google oracleAlwaysNetError SCRAPER_MAX_RETRIES searcher₀).2.2 =
      Except.error (PyExc.reqExc 3) ∧
    ((search_google oracleAlwaysNetError SCRAPER_MAX_RETRIES
        searcher₀).2.2).isOk = false := by
  constructor <;> rfl

/-- C5 (amended): when a wrapped operation raises a RequestException on
every attempt, the wrapper runs exactly maxRetries attempts and re-raises
the last attempt's exception to its caller (the per-entity worker catches
it). -/
theorem backoff_raises_last_failure {σ α : Type}
    (f : ℕ → σ → σ × Except PyExc α) (code : ℕ → ℕ)
    (hf : ∀ attempt st, (f attempt st).2 = .error (.reqExc (code attempt)))
    (maxRetries : ℕ) (h1 : 1 ≤ maxRetries) (s : σ) :
    (exponential_backoff f maxRetries s).2.2 =
      Except.error (PyExc.reqExc (code maxRetries)) ∧
    (exponential_backoff f maxRetries s).2.1 = maxRetries := by
  have loop : ∀ (r a : ℕ) (s : σ),
      (backoffRun f r a s).2.2 = Except.error (PyExc.reqExc (code (a + r))) ∧
      (backoffRun f r a s).2.1 = a + r := by
    intro r
    induction r with
    | zero =>
      intro a s
      rcases hfa : f a s with ⟨s', e⟩
      have he := hf a s
      rw [hfa] at he
      dsimp only at he
      subst he
      simp [backoffRun, hfa]
    | succ r ih =>
      intro a s
      rcases hfa : f a s with ⟨s', e⟩
      have he := hf a s
      rw [hfa] at he
      dsimp only at he
      subst he
      simp only [backoffRun, hfa]
      have hr := ih (a + 1) s'
      have harith : a + 1 + r = a + (r + 1) := by omega
      rw [harith] at hr
      exact hr
  have hl := loop (maxRetries - 1) 1 s
  have harith : 1 + (maxRetries - 1) = maxRetries := by omega
  rw [harith] at hl
  exact hl

/-- An operation that always raises a RequestException tagged with the
attempt number. -/
def alwaysFailOp : ℕ → Unit → Unit × Except PyExc Unit :=
  fun attempt _ => ((), .error (.reqExc attempt))

/-- Witness for C5 (amended) at the always-failing operation and three
attempts. -/
theorem backoff_raises_last_failure_witness :
    (exponential_backoff alwaysFailOp 3 ()).2.2 =
      Except.error (PyExc.reqExc 3) ∧
    (exponential_backoff alwaysFailOp 3 ()).2.1 = 3 :=
  backoff_raises_last_failure alwaysFailOp (fun n => n) (fun _ _ => rfl) 3
    (by decide) ()

/-- Oracle: HTTP 403 on the first attempt, success on later attempts. -/
def oracle403ThenOk : ℕ → ℕ → PageResp := fun attempt start =>
  if attempt = 1 then .httpError 403
  else if start = 1 then .ok ["https://example.com/a"]
  else .ok []

/-- C6 counterexample: an HTTP 403 auth/quota error on the first attempt is
retried — the logical call runs two attempts and ends up succeeding, instead
of failing immediately with no retry consumed. -/
theorem http_4xx_retried_counterexample :
    (search_google oracle403ThenOk SCRAPER_MAX_RETRIES searcher₀).2.1 = 2 ∧
    (search_google oracle403ThenOk SCRAPER_MAX_RETRIES searcher₀).2.2 =
      Except.ok ["https://example.com/a"] := by
  constructor <;> rfl

/-- A first attempt that raises something other than a RequestException (the
ValueError for an error payload) stops the wrapper at one attempt, the
exception propagating unchanged. -/
theorem backoff_stops_on_valueError {σ α : Type}
    (f : ℕ → σ → σ × Except PyExc α) (maxRetries : ℕ) (s : σ) (msg : String)
    (h : (f 1 s).2 = .error (.valueError msg)) :
    (exponential_backoff f maxRetries s).2.1 = 1 ∧
    (exponential_backoff f maxRetries s).2.2 =
      Except.error (PyExc.valueError msg) := by
  rcases hfa : f 1 s with ⟨s', e⟩
  rw [hfa] at h
  dsimp only at h
  subst h
  unfold exponential_backoff
  rcases hr : maxRetries - 1 with _ | r <;> simp [backoffRun, hfa]

/-- A first attempt that raises a RequestException is retried whenever a
second attempt remains. -/
theorem backoff_retries_on_reqExc {σ α : Type}
    (f : ℕ → σ → σ × Except PyExc α) (maxRetries : ℕ) (s : σ) (code : ℕ)
    (h : (f 1 s).2 = .error (.reqExc code)) (h2 : 2 ≤ maxRetries) :
    2 ≤ (exponential_backoff f maxRetries s).2.1 := by
  rcases hfa : f 1 s with ⟨s', e⟩
  rw [hfa] at h
  dsimp only at h
  subst h
  unfold exponential_backoff
  have hr : maxRetries - 1 = (maxRetries - 2) + 1 := by omega
  rw [hr]
  simp only [backoffRun, hfa]
  exact backoffRun_attempt_ge f (maxRetries - 2) 2 s'

/-- C6 (amended): the wrapper retries exactly the requests.RequestException
class — network errors and HTTP status errors, 4xx auth/quota included —
while any other exception propagates at once with no retry consumed; in
search_google the only such immediate exception is the ValueError raised
for an error payload on the first page. -/
theorem backoff_retry_classification {σ α : Type}
    (f : ℕ → σ → σ × Except PyExc α) (maxRetries : ℕ) (s : σ) :
    (∀ msg : String, (f 1 s).2 = .error (.valueError msg) →
      (exponential_backoff f maxRetries s).2.1 = 1 ∧
      (exponential_backoff f maxRetries s).2.2 =
        Except.error (PyExc.valueError msg)) ∧
    (∀ code : ℕ, (f 1 s).2 = .error (.reqExc code) → 2 ≤ maxRetries →
      2 ≤ (exponential_backoff f maxRetries s).2.1) ∧
    (∀ (oracle : ℕ → ℕ → PageResp) (msg : String) (st : GoogleSearcher),
      oracle 1 1 = .errorPayload msg →
      (search_google oracle maxRetries st).2.1 = 1 ∧
      (search_google oracle maxRetries st).2.2 =
        Except.error (PyExc.valueError msg)) ∧
    (∀ (oracle : ℕ → ℕ → PageResp) (code : ℕ) (st : GoogleSearcher),
      oracle 1 1 = .httpError code → 2 ≤ maxRetries →
      2 ≤ (search_google oracle maxRetries st).2.1) := by
  refine ⟨fun msg h => backoff_stops_on_valueError f maxRetries s msg h,
    fun code h h2 => backoff_retries_on_reqExc f maxRetries s code h h2,
    fun oracle msg st h => ?_, fun oracle code st h h2 => ?_⟩
  · apply backoff_stops_on_valueError
    rw [h]
    rfl
  · exact backoff_retries_on_reqExc
      (fun attempt st => search_google_body (oracle attempt 1) (oracle attempt 11) st)
      maxRetries st code (by dsimp only; rw [h]; rfl) h2

/-- Oracle that always returns an API error payload. -/
def oraclePayload : ℕ → ℕ → PageResp := fun _ _ => .errorPayload "quota"

/-- Witness for C6 (amended): a quota error payload stops the query at one
attempt, and an HTTP 403 is retried into a second attempt. -/
theorem backoff_retry_classification_witness :
    ((search_google oraclePayload 3 searcher₀).2.1 = 1 ∧
     (search_google oraclePayload 3 searcher₀).2.2 =
       Except.error (PyExc.valueError "quota")) ∧
    2 ≤ (search_google oracle403ThenOk 3 searcher₀).2.1 :=
  ⟨(backoff_retry_classification alwaysFailOp 3 ()).2.2.1 oraclePayload "quota"
     searcher₀ rfl,
   (backoff_retry_classification alwaysFailOp 3 ()).2.2.2 oracle403ThenOk 403
     searcher₀ rfl (by decide)⟩
